import Mathlib

/-!
Shallow embedding of `duckencoder.py` (class `DuckEncoder`), the DuckyScript
to USB-HID payload encoder.  The program is Python 2 (byte strings, floor
integer division, `print_function` import); strings of output bytes are
modelled as `List Nat`, layout property dictionaries as association lists,
and Python exceptions as the `Except PyErr` monad.
-/

/-- Python exceptions that the encoder can raise. -/
inductive PyErr where
  /-- `TypeError`, e.g. a function called with too few arguments. -/
  | typeError : PyErr
  /-- `ValueError`, e.g. `int(...)` on a malformed literal or unpacking
  a 1-element list into two variables. -/
  | valueError : PyErr
  /-- `UnboundLocalError`: reading a local variable never assigned. -/
  | unboundLocal : PyErr
  /-- `IndexError`: indexing an empty string. -/
  | indexError : PyErr
  deriving Repr, DecidableEq

/-- A loaded `.properties` resource: name-to-value mapping, as produced by
`DuckEncoder.readResource` (a Python dict; keys are unique). -/
abbrev Table := List (String × String)

/-- Dictionary membership test and access, `prop in d` / `d[prop]`. -/
def tlookup : Table → String → Option String
  | [], _ => none
  | (k, v) :: rest, key => if k = key then some v else tlookup rest key

/-- Characters stripped by Python 2 `str.strip()` (`string.whitespace`). -/
def isSpaceChar (c : Char) : Bool :=
  c == ' ' || c == '\t' || c == '\n' || c == '\r' || c == '\x0B' || c == '\x0C'

/-- Python `s.strip()`: drop leading and trailing whitespace. -/
def pyStrip (s : String) : String :=
  String.mk (((s.data.dropWhile isSpaceChar).reverse.dropWhile isSpaceChar).reverse)

/-- ASCII uppercasing of one char, as Python 2 `str.upper()` does per byte. -/
def upChar (c : Char) : Char :=
  if 'a' ≤ c ∧ c ≤ 'z' then Char.ofNat (c.toNat - 32) else c

/-- Python 2 `s.upper()`. -/
def pyUpper (s : String) : String := String.mk (s.data.map upChar)

/-- Python slicing `s[0:n]`. -/
def takeChars (n : Nat) (s : String) : String := String.mk (s.data.take n)

/-- `p.isPrefixOf s` on char lists, for Python `s.startswith(p)`. -/
def charsPre : List Char → List Char → Bool
  | [], _ => true
  | _ :: _, [] => false
  | p :: ps, c :: cs => p == c && charsPre ps cs

/-- Python `s.startswith(p)`. -/
def startsWithStr (p s : String) : Bool := charsPre p.data s.data

/-- Split a char list at every occurrence of `sep` (Python `s.split(sep)`;
splitting an empty string yields one empty group, like Python). -/
def splitChar (sep : Char) : List Char → List (List Char)
  | [] => [[]]
  | c :: rest =>
    if c = sep then [] :: splitChar sep rest
    else
      match splitChar sep rest with
      | [] => [[c]]
      | g :: gs => (c :: g) :: gs

/-- Split at the first space only: Python `s.partition(" ")` / `s.split(" ", 1)`.
Returns the part before the first space, and `some` remainder when a space
occurs (`none` when the string has no space). -/
def splitSpace1 : List Char → List Char × Option (List Char)
  | [] => ([], none)
  | c :: rest =>
    if c = ' ' then ([], some rest)
    else
      let p := splitSpace1 rest
      (c :: p.1, p.2)

/-- Decimal digit run to a number; `none` when empty or a non-digit occurs. -/
def decDigitsToNat? (cs : List Char) : Option Nat :=
  match cs with
  | [] => none
  | _ =>
    cs.foldl
      (fun acc c =>
        acc.bind fun n => if c.isDigit then some (n * 10 + (c.toNat - 48)) else none)
      (some 0)

/-- Python `int(s)`: strip whitespace, optional sign, decimal digits;
`none` models the `ValueError` on anything else. -/
def pyInt? (s : String) : Option Int :=
  match (pyStrip s).data with
  | '+' :: ds => (decDigitsToNat? ds).map Int.ofNat
  | '-' :: ds => (decDigitsToNat? ds).map (fun n => -(n : Int))
  | ds => (decDigitsToNat? ds).map Int.ofNat

/-- Value of one hexadecimal digit. -/
def hexVal? (c : Char) : Option Nat :=
  if '0' ≤ c ∧ c ≤ '9' then some (c.toNat - 48)
  else if 'a' ≤ c ∧ c ≤ 'f' then some (c.toNat - 87)
  else if 'A' ≤ c ∧ c ≤ 'F' then some (c.toNat - 55)
  else none

/-- Hex digit run to a number; `none` when empty or a non-hex-digit occurs. -/
def hexDigitsToNat? (cs : List Char) : Option Nat :=
  match cs with
  | [] => none
  | _ =>
    cs.foldl (fun acc c => acc.bind fun n => (hexVal? c).map fun d => n * 16 + d)
      (some 0)

/-- Drop an optional `0x` / `0X` prefix, as `int(s, 16)` accepts. -/
def stripHexPre (cs : List Char) : List Char :=
  match cs with
  | '0' :: x :: rest => if x = 'x' ∨ x = 'X' then rest else cs
  | _ => cs

/-- Python `int(s, 16)`: strip whitespace, optional sign, optional `0x`
prefix, hex digits. -/
def pyHex? (s : String) : Option Int :=
  match (pyStrip s).data with
  | '+' :: ds => (hexDigitsToNat? (stripHexPre ds)).map Int.ofNat
  | '-' :: ds => (hexDigitsToNat? (stripHexPre ds)).map (fun n => -(n : Int))
  | ds => (hexDigitsToNat? (stripHexPre ds)).map Int.ofNat

/-- The table-value parsing step shared by the resolver methods:
`int(keyval, 16) if keyval[0:2].upper() == "0X" else int(keyval)`. -/
def parseKeyval (v : String) : Except PyErr Int :=
  if pyUpper (takeChars 2 v) = "0X" then
    match pyHex? v with
    | some n => .ok n
    | none => .error .valueError
  else
    match pyInt? v with
    | some n => .ok n
    | none => .error .valueError

/-- Python 2 `chr(n)`: one byte; raises `ValueError` outside `0..255`. -/
def pyChr (n : Int) : Except PyErr Nat :=
  if 0 ≤ n ∧ n < 256 then .ok n.toNat else .error .valueError

/-- Python `ord(s)` on a byte string: needs length exactly 1, else
`TypeError`. -/
def pyOrd (bs : List Nat) : Except PyErr Nat :=
  match bs with
  | [b] => .ok b
  | _ => .error .typeError

/-- Parse a table value and convert it to the single output byte
(`chr(keyval)` after the hex/decimal conversion). -/
def valueToByte (v : String) : Except PyErr Nat :=
  match parseKeyval v with
  | .error e => .error e
  | .ok n => pyChr n

/-- The layered lookup used for instruction names: keyboard (base) table
first, then the language (locale) table. -/
def lookupKL (keyProp langProp : Table) (key : String) : Option String :=
  match tlookup keyProp key with
  | some v => some v
  | none => tlookup langProp key

/-- `DuckEncoder.delay2USBBytes`: Python 2 `/` and `%` are floor division
and floor modulus on ints, hence `Int.fdiv` / `Int.fmod`; `range(count)`
of a negative count is empty, hence `Int.toNat`. -/
def delay2USBBytes (delay : Int) : List Nat :=
  (List.replicate (Int.fdiv delay 255).toNat [0, 255]).flatten
    ++ [0, (Int.fmod delay 255).toNat]

/-- Downstream reading of a delay payload: each leading pair contributes
its 255ms maximum-wait unit, the final pair contributes the remainder. -/
def decodeDelay : List Nat → Nat
  | _ :: m :: rest => if rest.isEmpty then m else 255 + decodeDelay rest
  | _ => 0

/-- Two-uppercase-hex-digit rendering of a character ordinal:
`str(hex(val))[2:].upper()`, left-padded with `"0"` to length 2.  A char of
a Python 2 byte string has `ord` below `0x100`, so `hex` yields at most two
digits. -/
def hexDigitU (n : Nat) : Char :=
  if n < 10 then Char.ofNat (48 + n) else Char.ofNat (55 + n)

/-- Left-pad a hex rendering with `"0"` to two digits
(`if len(hexval) == 1: hexval = "0" + hexval`). -/
def padHex2 (h : String) : String := if h.length = 1 then "0" ++ h else h

/-- See `hexDigitU`; the padded hexadecimal name component. -/
def pyHexUpper2 (val : Nat) : String :=
  padHex2 (if val < 16 then String.mk [hexDigitU val]
           else String.mk [hexDigitU (val / 16), hexDigitU (val % 16)])

/-- The language-property lookup name `ASCIIChar2USBBytes` builds for a
character: `ASCII_xx` below `0x80`, `ISO_8859_1_xx` above. -/
def charName (c : Char) : String :=
  if c.toNat < 0x80 then "ASCII_" ++ pyHexUpper2 c.toNat
  else "ISO_8859_1_" ++ pyHexUpper2 c.toNat

/-- The per-entry loop of `ASCIIChar2USBBytes`: resolve each name of the
comma-separated locale value to one byte (keyboard table first, then
language table).  `.ok none` models the early `return ""` on a missing
entry, which discards bytes already accumulated. -/
def resolveCharEntries (keyProp langProp : Table) :
    List (List Char) → List Nat → Except PyErr (Option (List Nat))
  | [], acc => .ok (some acc)
  | e :: rest, acc =>
    match lookupKL keyProp langProp (pyStrip (String.mk e)) with
    | none => .ok none
    | some v =>
      match valueToByte v with
      | .error er => .error er
      | .ok b => resolveCharEntries keyProp langProp rest (acc ++ [b])

/-- `DuckEncoder.ASCIIChar2USBBytes`: translate one character into its
keycode byte (and modifier byte), via the locale `ASCII_xx`/`ISO_8859_1_xx`
entry; an absent name skips the character (`""`); a one-byte result gets a
zero modifier byte appended. -/
def ASCIIChar2USBBytes (c : Char) (keyProp langProp : Table) :
    Except PyErr (List Nat) :=
  match tlookup langProp (charName c) with
  | none => .ok []
  | some v =>
    match resolveCharEntries keyProp langProp (splitChar ',' v.data) [] with
    | .error e => .error e
    | .ok none => .ok []
    | .ok (some res) => .ok (if res.length = 1 then res ++ [0] else res)

/-- The fixed keyword-normalization dict applied by `keyInstr2USBBytes`
when the first `KEY_` lookup misses. -/
def keyAliases : Table :=
  [("ESCAPE", "ESC"), ("RETURN", "ENTER"), ("DEL", "DELETE"),
   ("BREAK", "PAUSE"), ("CONTROL", "CTRL"), ("DOWNARROW", "DOWN"),
   ("UPARROW", "UP"), ("LEFTARROW", "LEFT"), ("RIGHTARROW", "RIGHT"),
   ("MENU", "APP"), ("WINDOWS", "GUI"), ("PLAY", "MEDIA_PLAY_PAUSE"),
   ("PAUSE", "MEDIA_PLAY_PAUSE"), ("STOP", "MEDIA_STOP"),
   ("MUTE", "MEDIA_MUTE"), ("VOLUMEUP", "MEDIA_VOLUME_INC"),
   ("VOLUMEDOWN", "MEDIA_VOLUME_DEC"), ("SCROLLLOCK", "SCROLL_LOCK"),
   ("NUMLOCK", "NUM_LOCK"), ("CAPSLOCK", "CAPS_LOCK")]

/-- `DuckEncoder.keyInstr2USBBytes`: a one-char instruction goes through
`ASCIIChar2USBBytes` and keeps only the keycode byte (`[0]` indexing of an
empty result raises `IndexError`); otherwise `KEY_` + name is looked up in
keyboard then language table, retried once through `keyAliases`, and a
final miss reports to stderr and returns `""`. -/
def keyInstr2USBBytes (keyinstr : String) (keyProp langProp : Table) :
    Except PyErr (List Nat) :=
  match keyinstr.data with
  | [c] =>
    match ASCIIChar2USBBytes c keyProp langProp with
    | .error e => .error e
    | .ok [] => .error .indexError
    | .ok (b :: _) => .ok [b]
  | _ =>
    match lookupKL keyProp langProp ("KEY_" ++ pyStrip keyinstr) with
    | some v =>
      match valueToByte v with
      | .error e => .error e
      | .ok b => .ok [b]
    | none =>
      match tlookup keyAliases (pyUpper (pyStrip keyinstr)) with
      | none => .ok []
      | some alias2 =>
        match lookupKL keyProp langProp ("KEY_" ++ pyStrip alias2) with
        | none => .ok []
        | some v =>
          match valueToByte v with
          | .error e => .error e
          | .ok b => .ok [b]

/-- `DuckEncoder.prop2USBByte`: single-name lookup, keyboard table first,
then language table.  The function body never assigns `keyval` when the
name is in neither dict, so the later `keyval is None` test raises
`UnboundLocalError` (dict values are strings, never `None`, so the
diagnostic branch guarded by that test is unreachable). -/
def prop2USBByte (prop : String) (keyProp langProp : Table) :
    Except PyErr (List Nat) :=
  match lookupKL keyProp langProp prop with
  | some v =>
    match valueToByte v with
    | .error e => .error e
    | .ok b => .ok [b]
  | none => .error .unboundLocal

/-- A line's key argument followed by a single named modifier byte, the
shape shared by the CTRL/ALT/SHIFT/GUI/WINDOWS/COMMAND with-argument
branches of `parseScriptLine`. -/
def keyWithModifier (args modName : String) (keyProp langProp : Table) :
    Except PyErr (List Nat) :=
  match keyInstr2USBBytes args keyProp langProp with
  | .error e => .error e
  | .ok k =>
    match prop2USBByte modName keyProp langProp with
    | .error e => .error e
    | .ok m => .ok (k ++ m)

/-- `chr(ord(prop2USBByte(modA, ...)) | ord(prop2USBByte(modB, ...)))`:
the bitwise-OR combination of two modifier bytes. -/
def oredModifier (modA modB : String) (keyProp langProp : Table) :
    Except PyErr Nat :=
  match prop2USBByte modA keyProp langProp with
  | .error e => .error e
  | .ok ma =>
    match pyOrd ma with
    | .error e => .error e
    | .ok a =>
      match prop2USBByte modB keyProp langProp with
      | .error e => .error e
      | .ok mb =>
        match pyOrd mb with
        | .error e => .error e
        | .ok b =>
          match pyChr (Int.ofNat (Nat.lor a b)) with
          | .error e => .error e
          | .ok m => .ok m

/-- Key argument plus an OR-combined modifier pair, the shape of the
CTRL-ALT / CTRL-SHIFT / COMMAND-OPTION / ALT-SHIFT with-argument
branches. -/
def keyWithOredModifiers (args modA modB : String) (keyProp langProp : Table) :
    Except PyErr (List Nat) :=
  match keyInstr2USBBytes args keyProp langProp with
  | .error e => .error e
  | .ok k =>
    match oredModifier modA modB keyProp langProp with
    | .error e => .error e
    | .ok m => .ok (k ++ [m])

/-- Two property lookups concatenated (ALT-TAB / GUI without argument). -/
def twoProps (pa pb : String) (keyProp langProp : Table) :
    Except PyErr (List Nat) :=
  match prop2USBByte pa keyProp langProp with
  | .error e => .error e
  | .ok x =>
    match prop2USBByte pb keyProp langProp with
    | .error e => .error e
    | .ok y => .ok (x ++ y)

/-- The STRING loop of `parseScriptLine`: append each character's bytes
when non-empty. -/
def stringChars (keyProp langProp : Table) :
    List Char → List Nat → Except PyErr (List Nat)
  | [], acc => .ok acc
  | c :: rest, acc =>
    match ASCIIChar2USBBytes c keyProp langProp with
    | .error e => .error e
    | .ok kd =>
      stringChars keyProp langProp rest (if 0 < kd.length then acc ++ kd else acc)

/-- The STRING_DELAY loop: each character's bytes followed by the fixed
delay bytes. -/
def stringDelayChars (keyProp langProp : Table) (delaystr : List Nat) :
    List Char → List Nat → Except PyErr (List Nat)
  | [], acc => .ok acc
  | c :: rest, acc =>
    match ASCIIChar2USBBytes c keyProp langProp with
    | .error e => .error e
    | .ok kd =>
      stringDelayChars keyProp langProp delaystr rest
        (if 0 < kd.length then acc ++ (kd ++ delaystr) else acc)

/-- `DuckEncoder.parseScriptLine`.  The no-argument CONTROL/CTRL, ALT and
SHIFT branches call `prop2USBByte` with a single argument
(`DuckEncoder.prop2USBByte("KEY_LEFT_CTRL")` etc.), two positional
arguments short of its signature, which raises `TypeError` before the body
runs. -/
def parseScriptLine (line : String) (keyProp langProp : Table) :
    Except PyErr (List Nat) :=
  let cmd := pyStrip (String.mk (splitSpace1 line.data).1)
  let args :=
    pyStrip (String.mk (match (splitSpace1 line.data).2 with
                        | some r => r
                        | none => []))
  if cmd = "DELAY" then
    match pyInt? args with
    | none => .error .valueError
    | some delay => .ok (delay2USBBytes delay)
  else if cmd = "STRING" then
    if args = "" then .ok []
    else stringChars keyProp langProp args.data []
  else if cmd = "STRING_DELAY" then
    if args = "" then .ok []
    else
      match splitSpace1 args.data with
      | (_, none) => .error .valueError
      | (d, some chars) =>
        match pyInt? (pyStrip (String.mk d)) with
        | none => .error .valueError
        | some delay =>
          stringDelayChars keyProp langProp (delay2USBBytes delay)
            (pyStrip (String.mk chars)).data []
  else if cmd = "CONTROL" ∨ cmd = "CTRL" then
    if args ≠ "" then keyWithModifier args "MODIFIERKEY_CTRL" keyProp langProp
    else .error .typeError
  else if cmd = "ALT" then
    if args ≠ "" then keyWithModifier args "MODIFIERKEY_ALT" keyProp langProp
    else .error .typeError
  else if cmd = "SHIFT" then
    if args ≠ "" then keyWithModifier args "MODIFIERKEY_SHIFT" keyProp langProp
    else .error .typeError
  else if cmd = "CTRL-ALT" then
    if args ≠ "" then
      keyWithOredModifiers args "MODIFIERKEY_CTRL" "MODIFIERKEY_ALT" keyProp langProp
    else .ok []
  else if cmd = "CTRL-SHIFT" then
    if args ≠ "" then
      keyWithOredModifiers args "MODIFIERKEY_CTRL" "MODIFIERKEY_SHIFT" keyProp langProp
    else .ok []
  else if cmd = "COMMAND-OPTION" then
    if args ≠ "" then
      keyWithOredModifiers args "MODIFIERKEY_LEFT_GUI" "MODIFIERKEY_ALT" keyProp langProp
    else .ok []
  else if cmd = "ALT-SHIFT" then
    if args ≠ "" then
      keyWithOredModifiers args "MODIFIERKEY_LEFT_ALT" "MODIFIERKEY_SHIFT" keyProp langProp
    else
      match prop2USBByte "KEY_LEFT_ALT" keyProp langProp with
      | .error e => .error e
      | .ok k =>
        match oredModifier "MODIFIERKEY_LEFT_ALT" "MODIFIERKEY_SHIFT" keyProp langProp with
        | .error e => .error e
        | .ok m => .ok (k ++ [m])
  else if cmd = "ALT-TAB" then
    if args ≠ "" then .ok []
    else twoProps "KEY_TAB" "MODIFIERKEY_LEFT_ALT" keyProp langProp
  else if cmd = "GUI" ∨ cmd = "WINDOWS" then
    if args ≠ "" then keyWithModifier args "MODIFIERKEY_LEFT_GUI" keyProp langProp
    else twoProps "KEY_LEFT_GUI" "MODIFIERKEY_LEFT_GUI" keyProp langProp
  else if cmd = "COMMAND" then
    if args ≠ "" then keyWithModifier args "MODIFIERKEY_LEFT_GUI" keyProp langProp
    else
      match prop2USBByte "KEY_COMMAND" keyProp langProp with
      | .error e => .error e
      | .ok k => .ok (k ++ [0])
  else
    match keyInstr2USBBytes cmd keyProp langProp with
    | .error e => .error e
    | .ok k => .ok (k ++ [0])

/-- The `for i in range(int(...))` repeat expansion of `parseScript`. -/
def repeatLine (keyProp langProp : Table) (lastLine : String) :
    Nat → List Nat → Except PyErr (List Nat)
  | 0, acc => .ok acc
  | n + 1, acc =>
    match parseScriptLine lastLine keyProp langProp with
    | .error e => .error e
    | .ok bs => repeatLine keyProp langProp lastLine n (acc ++ bs)

/-- The line loop of `DuckEncoder.parseScript`.  After a REPEAT line is
expanded, control falls through to `lastLine = l`, so the REPEAT line
itself becomes the recorded last line; only the `continue` paths (blank,
comment, missing second token, no previous line) leave it unchanged. -/
def parseScriptLoop (keyProp langProp : Table) :
    List String → Option String → List Nat → Except PyErr (List Nat)
  | [], _, acc => .ok acc
  | l :: rest, lastLine, acc =>
    if pyStrip l = "" ∨ startsWithStr "//" (pyStrip l)
        ∨ startsWithStr "REM " (pyStrip l) then
      parseScriptLoop keyProp langProp rest lastLine acc
    else if takeChars 7 (pyStrip l) = "REPEAT " then
      match (splitSpace1 (pyStrip l).data).2 with
      | none => parseScriptLoop keyProp langProp rest lastLine acc
      | some t =>
        match lastLine with
        | none => parseScriptLoop keyProp langProp rest lastLine acc
        | some ll =>
          match pyInt? (pyStrip (String.mk t)) with
          | none => .error .valueError
          | some n =>
            match repeatLine keyProp langProp ll n.toNat acc with
            | .error e => .error e
            | .ok acc2 =>
              parseScriptLoop keyProp langProp rest (some (pyStrip l)) acc2
    else
      match parseScriptLine (pyStrip l) keyProp langProp with
      | .error e => .error e
      | .ok bs =>
        parseScriptLoop keyProp langProp rest (some (pyStrip l)) (acc ++ bs)

/-- The lines of a script source, as `source.splitlines(True)` followed by
the per-line strip sees them (splitting at newlines; carriage returns are
removed by the strip). -/
def scriptLines (source : String) : List String :=
  (splitChar '\n' source.data).map String.mk

/-- `DuckEncoder.parseScript`. -/
def parseScript (source : String) (keyProp langProp : Table) :
    Except PyErr (List Nat) :=
  parseScriptLoop keyProp langProp (scriptLines source) none []

/-- A per-line encoding result that keeps the payload pair-aligned:
either an exception, or a byte string of even length. -/
def evenOk (r : Except PyErr (List Nat)) : Bool :=
  match r with
  | .ok bs => bs.length % 2 == 0
  | .error _ => true

/-! ## Verified properties -/

theorem flatten_replicate_pair_len (k r : Nat) :
    ((List.replicate k ([0, 255] : List Nat)).flatten ++ [0, r]).length
      = 2 * (k + 1) := by
  induction k with
  | zero => rfl
  | succ n ih =>
    rw [List.replicate_succ, List.flatten_cons]
    simp only [List.length_append, List.length_cons, List.length_nil] at *
    omega

theorem append_pair_isEmpty (l : List Nat) (a r : Nat) :
    (l ++ [a, r]).isEmpty = false := by
  cases l <;> rfl

theorem decode_flatten_replicate (k r : Nat) :
    decodeDelay ((List.replicate k ([0, 255] : List Nat)).flatten ++ [0, r])
      = 255 * k + r := by
  induction k with
  | zero => simp [decodeDelay]
  | succ n ih =>
    rw [List.replicate_succ, List.flatten_cons]
    show decodeDelay
        (0 :: 255 :: ((List.replicate n ([0, 255] : List Nat)).flatten ++ [0, r])) = _
    rw [decodeDelay, append_pair_isEmpty]
    simp only [Bool.false_eq_true, if_false, ih]
    ring

/-- C2: for every delay `d ≥ 0`, `delay2USBBytes` emits `d / 255`
repetitions of the pair `(0x00, 0xFF)` followed by exactly one final pair
`(0x00, d % 255)`; the result has length `2 * (d / 255 + 1)`, decoding it
(255 per leading pair plus the final remainder) reproduces `d` exactly,
and a zero delay emits exactly the single pair `(0x00, 0x00)`. -/
theorem delay2USBBytes_correct (d : Nat) :
    delay2USBBytes (d : Int)
        = (List.replicate (d / 255) ([0, 255] : List Nat)).flatten ++ [0, d % 255] ∧
    (delay2USBBytes (d : Int)).length = 2 * (d / 255 + 1) ∧
    decodeDelay (delay2USBBytes (d : Int)) = d ∧
    delay2USBBytes ((0 : Nat) : Int) = [0, 0] := by
  have h1 : (Int.fdiv (d : Int) 255).toNat = d / 255 := by
    rw [show (255 : Int) = ((255 : Nat) : Int) from rfl, ← Int.ofNat_fdiv]
    exact Int.toNat_ofNat _
  have h2 : (Int.fmod (d : Int) 255).toNat = d % 255 := by
    rw [show (255 : Int) = ((255 : Nat) : Int) from rfl, ← Int.ofNat_fmod]
    exact Int.toNat_ofNat _
  have heq : delay2USBBytes (d : Int)
      = (List.replicate (d / 255) ([0, 255] : List Nat)).flatten ++ [0, d % 255] := by
    unfold delay2USBBytes
    rw [h1, h2]
  refine ⟨heq, ?_, ?_, by decide⟩
  · rw [heq]; exact flatten_replicate_pair_len _ _
  · rw [heq, decode_flatten_replicate]
    have := Nat.div_add_mod d 255
    omega

/-- C10: the line encoder is not total on malformed numeric arguments: a
`DELAY` line with a non-integer or missing argument, a `STRING_DELAY` line
with no second token after the delay number, and a `REPEAT` line with a
non-integer count (after a recorded previous line) each raise `ValueError`
and abort the whole script. -/
theorem malformed_numeric_raises :
    parseScript "DELAY x" [] [] = .error .valueError ∧
    parseScript "DELAY" [] [] = .error .valueError ∧
    parseScript "STRING_DELAY 500" [] [] = .error .valueError ∧
    parseScript "STRING A\nREPEAT x" [] [] = .error .valueError :=
  ⟨rfl, rfl, rfl, rfl⟩

/-- C4: contrary to the claim, a `CTRL`/`CONTROL`/`ALT`/`SHIFT` line with
no argument does not encode to two bytes: those branches call
`prop2USBByte` with one argument instead of three, raising `TypeError`
for any pair of layout tables. -/
theorem ctrl_alt_shift_noarg_typeError (keyProp langProp : Table) :
    parseScriptLine "CTRL" keyProp langProp = .error .typeError ∧
    parseScriptLine "CONTROL" keyProp langProp = .error .typeError ∧
    parseScriptLine "ALT" keyProp langProp = .error .typeError ∧
    parseScriptLine "SHIFT" keyProp langProp = .error .typeError :=
  ⟨rfl, rfl, rfl, rfl⟩

/-- C5: contrary to the claim, when a property name is absent from both
tables `prop2USBByte` does not return an empty result after a diagnostic:
its `keyval` local is never assigned, so the `keyval is None` test raises
`UnboundLocalError`. -/
theorem prop2USBByte_missing_unboundLocal (prop : String) (keyProp langProp : Table)
    (h1 : tlookup keyProp prop = none) (h2 : tlookup langProp prop = none) :
    prop2USBByte prop keyProp langProp = .error .unboundLocal := by
  unfold prop2USBByte lookupKL
  rw [h1, h2]

theorem prop2USBByte_missing_unboundLocal_witness :
    prop2USBByte "NOPE" [] [] = .error .unboundLocal :=
  prop2USBByte_missing_unboundLocal "NOPE" [] [] rfl rfl

/-- C6: contrary to the claim, a bare line whose command token is a single
character not covered by the locale table does crash the encoder:
`keyInstr2USBBytes` indexes the empty `ASCIIChar2USBBytes` result with
`[0]`, raising `IndexError` (a multi-character unknown name such as
`SOMETHINGBOGUS` does fall through to bare-key resolution and contributes
zero key bytes). -/
theorem unknown_single_char_key_raises :
    parseScriptLine "Q" [] [] = .error .indexError ∧
    parseScript "Q" [] [] = .error .indexError ∧
    parseScriptLine "SOMETHINGBOGUS" [] [] = .ok [0] :=
  ⟨rfl, rfl, rfl⟩

/-- C1 (counterexample): a script consisting of the single bare line
`SOMETHINGBOGUS`, under tables with no matching entry, encodes to the
one-byte payload `[0x00]`, whose length is odd — the payload is not a
sequence of (keycode, modifier) pairs. -/
theorem parseScript_odd_payload :
    parseScript "SOMETHINGBOGUS" [] [] = .ok [0] ∧
    ([0] : List Nat).length % 2 = 1 :=
  ⟨rfl, rfl⟩

/-- C8 (counterexample): the fixed keyword-normalization table applied by
`keyInstr2USBBytes` has 20 entries, not 19. -/
theorem keyAliases_has_twenty_entries :
    keyAliases.length = 20 ∧ keyAliases.length ≠ 19 :=
  ⟨rfl, by decide⟩

theorem repeatLine_succ (keyProp langProp : Table) (ll : String) (n : Nat)
    (acc bs : List Nat) (h : parseScriptLine ll keyProp langProp = .ok bs) :
    repeatLine keyProp langProp ll (n + 1) acc
      = repeatLine keyProp langProp ll n (acc ++ bs) := by
  have h0 : repeatLine keyProp langProp ll (n + 1) acc
      = (match parseScriptLine ll keyProp langProp with
         | .error e => .error e
         | .ok bs => repeatLine keyProp langProp ll n (acc ++ bs)) := rfl
  rw [h0, h]

/-- C3 (amended): a `REPEAT N` line re-encodes the previously recorded
line exactly N times, but an executed `REPEAT` line is itself recorded as
the last line: `STRING A\nREPEAT 2` yields the encoding of `STRING A`
three times, while in `STRING A\nREPEAT 1\nREPEAT 1` the second `REPEAT 1`
re-encodes the first `REPEAT 1` line (as an ordinary line, i.e. a bare key
instruction), not `STRING A`.  A `REPEAT` with no preceding recorded line
contributes zero bytes. -/
theorem repeat_expansion (keyProp langProp : Table) :
    parseScript "REPEAT 2" keyProp langProp = .ok [] ∧
    (∀ encA, parseScriptLine "STRING A" keyProp langProp = .ok encA →
      parseScript "STRING A\nREPEAT 2" keyProp langProp
        = .ok (encA ++ encA ++ encA)) ∧
    (∀ encA encR, parseScriptLine "STRING A" keyProp langProp = .ok encA →
      parseScriptLine "REPEAT 1" keyProp langProp = .ok encR →
      parseScript "STRING A\nREPEAT 1\nREPEAT 1" keyProp langProp
        = .ok (encA ++ encA ++ encR)) := by
  refine ⟨rfl, ?_, ?_⟩
  · intro encA hA
    have step1 : ∀ r, parseScriptLine "STRING A" keyProp langProp = r →
        parseScript "STRING A\nREPEAT 2" keyProp langProp
          = (match r with
             | .error e => .error e
             | .ok bs =>
               parseScriptLoop keyProp langProp ["REPEAT 2"]
                 (some "STRING A") ([] ++ bs)) := by
      intro r h; rw [← h]; rfl
    have hrep : repeatLine keyProp langProp "STRING A" 2 ([] ++ encA)
        = .ok ((([] ++ encA) ++ encA) ++ encA) := by
      rw [repeatLine_succ keyProp langProp "STRING A" 1 ([] ++ encA) encA hA,
          repeatLine_succ keyProp langProp "STRING A" 0 (([] ++ encA) ++ encA) encA hA]
      rfl
    have step2 : ∀ acc acc2,
        repeatLine keyProp langProp "STRING A" 2 acc = .ok acc2 →
        parseScriptLoop keyProp langProp ["REPEAT 2"] (some "STRING A") acc
          = .ok acc2 := by
      intro acc acc2 hrl
      have h0 : parseScriptLoop keyProp langProp ["REPEAT 2"] (some "STRING A") acc
          = (match repeatLine keyProp langProp "STRING A" 2 acc with
             | .error e => .error e
             | .ok acc2 => .ok acc2) := rfl
      rw [h0, hrl]
    rw [step1 (.ok encA) hA]
    show parseScriptLoop keyProp langProp ["REPEAT 2"] (some "STRING A") ([] ++ encA)
        = .ok (encA ++ encA ++ encA)
    rw [step2 ([] ++ encA) _ hrep]
    simp
  · intro encA encR hA hR
    have step1 : ∀ r, parseScriptLine "STRING A" keyProp langProp = r →
        parseScript "STRING A\nREPEAT 1\nREPEAT 1" keyProp langProp
          = (match r with
             | .error e => .error e
             | .ok bs =>
               parseScriptLoop keyProp langProp ["REPEAT 1", "REPEAT 1"]
                 (some "STRING A") ([] ++ bs)) := by
      intro r h; rw [← h]; rfl
    have hrepA : repeatLine keyProp langProp "STRING A" 1 ([] ++ encA)
        = .ok (([] ++ encA) ++ encA) := by
      rw [repeatLine_succ keyProp langProp "STRING A" 0 ([] ++ encA) encA hA]
      rfl
    have step2 : ∀ acc acc2,
        repeatLine keyProp langProp "STRING A" 1 acc = .ok acc2 →
        parseScriptLoop keyProp langProp ["REPEAT 1", "REPEAT 1"]
            (some "STRING A") acc
          = parseScriptLoop keyProp langProp ["REPEAT 1"] (some "REPEAT 1") acc2 := by
      intro acc acc2 hrl
      have h0 : parseScriptLoop keyProp langProp ["REPEAT 1", "REPEAT 1"]
            (some "STRING A") acc
          = (match repeatLine keyProp langProp "STRING A" 1 acc with
             | .error e => .error e
             | .ok acc2 =>
               parseScriptLoop keyProp langProp ["REPEAT 1"]
                 (some "REPEAT 1") acc2) := rfl
      rw [h0, hrl]
    have hrepR : repeatLine keyProp langProp "REPEAT 1" 1 (([] ++ encA) ++ encA)
        = .ok ((([] ++ encA) ++ encA) ++ encR) := by
      rw [repeatLine_succ keyProp langProp "REPEAT 1" 0 (([] ++ encA) ++ encA) encR hR]
      rfl
    have step3 : ∀ acc acc2,
        repeatLine keyProp langProp "REPEAT 1" 1 acc = .ok acc2 →
        parseScriptLoop keyProp langProp ["REPEAT 1"] (some "REPEAT 1") acc
          = .ok acc2 := by
      intro acc acc2 hrl
      have h0 : parseScriptLoop keyProp langProp ["REPEAT 1"] (some "REPEAT 1") acc
          = (match repeatLine keyProp langProp "REPEAT 1" 1 acc with
             | .error e => .error e
             | .ok acc2 => .ok acc2) := rfl
      rw [h0, hrl]
    rw [step1 (.ok encA) hA]
    show parseScriptLoop keyProp langProp ["REPEAT 1", "REPEAT 1"]
        (some "STRING A") ([] ++ encA) = .ok (encA ++ encA ++ encR)
    rw [step2 ([] ++ encA) _ hrepA, step3 (([] ++ encA) ++ encA) _ hrepR]
    simp

theorem repeat_expansion_witness :
    parseScript "STRING A\nREPEAT 2"
        [("KEY_A", "0x04"), ("MODIFIERKEY_SHIFT", "0x02")]
        [("ASCII_41", "KEY_A, MODIFIERKEY_SHIFT")]
      = .ok ([4, 2] ++ [4, 2] ++ [4, 2]) ∧
    parseScript "STRING A\nREPEAT 1\nREPEAT 1"
        [("KEY_A", "0x04"), ("MODIFIERKEY_SHIFT", "0x02")]
        [("ASCII_41", "KEY_A, MODIFIERKEY_SHIFT")]
      = .ok ([4, 2] ++ [4, 2] ++ [0]) :=
  ⟨(repeat_expansion _ _).2.1 [4, 2] rfl,
   (repeat_expansion _ _).2.2 [4, 2] [0] rfl rfl⟩

/-- C3 (counterexample): with a layout resolving `A` to the pair `[4, 2]`,
the script `STRING A\nREPEAT 1\nREPEAT 1` encodes to `[4,2,4,2,0]`, not to
three copies of the `STRING A` encoding, because the second `REPEAT 1`
re-encodes the recorded `REPEAT 1` line; and `STRING A\nREPEAT` (a REPEAT
with no second token) contributes one byte, not zero, because the bare
`REPEAT` token is handled as an ordinary key line. -/
theorem repeat_line_recorded_cex :
    parseScriptLine "STRING A" [("KEY_A", "0x04"), ("MODIFIERKEY_SHIFT", "0x02")]
        [("ASCII_41", "KEY_A, MODIFIERKEY_SHIFT")] = .ok [4, 2] ∧
    parseScript "STRING A\nREPEAT 1\nREPEAT 1"
        [("KEY_A", "0x04"), ("MODIFIERKEY_SHIFT", "0x02")]
        [("ASCII_41", "KEY_A, MODIFIERKEY_SHIFT")] = .ok [4, 2, 4, 2, 0] ∧
    ([4, 2, 4, 2, 0] : List Nat) ≠ [4, 2] ++ [4, 2] ++ [4, 2] ∧
    parseScript "STRING A\nREPEAT"
        [("KEY_A", "0x04"), ("MODIFIERKEY_SHIFT", "0x02")]
        [("ASCII_41", "KEY_A, MODIFIERKEY_SHIFT")] = .ok [4, 2, 0] :=
  ⟨rfl, rfl, by decide, rfl⟩

/-- C9: an `ALT-TAB` line with a non-empty argument encodes to the empty
byte sequence, while `ALT-TAB` with no argument encodes to exactly the
`KEY_TAB` byte followed by the `MODIFIERKEY_LEFT_ALT` byte. -/
theorem altTab_spec (keyProp langProp : Table) :
    (∀ args : String, pyStrip args ≠ "" →
       parseScriptLine ("ALT-TAB " ++ args) keyProp langProp = .ok []) ∧
    (∀ b1 b2 : Nat, prop2USBByte "KEY_TAB" keyProp langProp = .ok [b1] →
       prop2USBByte "MODIFIERKEY_LEFT_ALT" keyProp langProp = .ok [b2] →
       parseScriptLine "ALT-TAB" keyProp langProp = .ok [b1, b2]) := by
  constructor
  · intro args hargs
    have h0 : parseScriptLine ("ALT-TAB " ++ args) keyProp langProp
        = (if pyStrip args ≠ "" then .ok []
           else twoProps "KEY_TAB" "MODIFIERKEY_LEFT_ALT" keyProp langProp) := rfl
    rw [h0, if_pos hargs]
  · intro b1 b2 h1 h2
    have h0 : parseScriptLine "ALT-TAB" keyProp langProp
        = twoProps "KEY_TAB" "MODIFIERKEY_LEFT_ALT" keyProp langProp := rfl
    rw [h0]
    unfold twoProps
    rw [h1]
    show (match prop2USBByte "MODIFIERKEY_LEFT_ALT" keyProp langProp with
          | Except.error e => (Except.error e : Except PyErr (List Nat))
          | Except.ok y => Except.ok ([b1] ++ y)) = .ok [b1, b2]
    rw [h2]
    rfl

theorem altTab_spec_witness :
    parseScriptLine ("ALT-TAB " ++ "x")
        [("KEY_TAB", "0x2B"), ("MODIFIERKEY_LEFT_ALT", "0x04")] [] = .ok [] ∧
    parseScriptLine "ALT-TAB"
        [("KEY_TAB", "0x2B"), ("MODIFIERKEY_LEFT_ALT", "0x04")] [] = .ok [43, 4] :=
  ⟨(altTab_spec [("KEY_TAB", "0x2B"), ("MODIFIERKEY_LEFT_ALT", "0x04")] []).1
      "x" (by decide),
   (altTab_spec [("KEY_TAB", "0x2B"), ("MODIFIERKEY_LEFT_ALT", "0x04")] []).2
      43 4 rfl rfl⟩

/-- C8 (amended): for a named key instruction longer than one character,
resolution prefixes the stripped name with `KEY_` and looks it up in the
keyboard table then the language table; on a miss it uppercases the
instruction, applies the fixed 20-entry alias table `keyAliases`, and
retries exactly once; a final miss (no alias, or alias lookup also
missing) yields the empty result, so that key contributes zero bytes. -/
theorem keyInstr_resolution (keyinstr : String) (keyProp langProp : Table)
    (hlen : keyinstr.length ≠ 1) :
    (∀ v, lookupKL keyProp langProp ("KEY_" ++ pyStrip keyinstr) = some v →
       keyInstr2USBBytes keyinstr keyProp langProp
         = (match valueToByte v with
            | .error e => .error e
            | .ok b => .ok [b])) ∧
    (lookupKL keyProp langProp ("KEY_" ++ pyStrip keyinstr) = none →
     tlookup keyAliases (pyUpper (pyStrip keyinstr)) = none →
       keyInstr2USBBytes keyinstr keyProp langProp = .ok []) ∧
    (∀ a, lookupKL keyProp langProp ("KEY_" ++ pyStrip keyinstr) = none →
       tlookup keyAliases (pyUpper (pyStrip keyinstr)) = some a →
       keyInstr2USBBytes keyinstr keyProp langProp
         = (match lookupKL keyProp langProp ("KEY_" ++ pyStrip a) with
            | none => .ok []
            | some v =>
              match valueToByte v with
              | .error e => .error e
              | .ok b => .ok [b])) := by
  have hdlen : keyinstr.data.length ≠ 1 := hlen
  rcases hd : keyinstr.data with _ | ⟨c, _ | ⟨c2, cs⟩⟩
  · refine ⟨?_, ?_, ?_⟩
    · intro v hv
      simp only [keyInstr2USBBytes, hd]
      rw [hv]
    · intro hv ha
      simp only [keyInstr2USBBytes, hd]
      rw [hv, ha]
    · intro a hv ha
      simp only [keyInstr2USBBytes, hd]
      rw [hv, ha]
  · exact absurd (by rw [hd]; rfl) hdlen
  · refine ⟨?_, ?_, ?_⟩
    · intro v hv
      simp only [keyInstr2USBBytes, hd]
      rw [hv]
    · intro hv ha
      simp only [keyInstr2USBBytes, hd]
      rw [hv, ha]
    · intro a hv ha
      simp only [keyInstr2USBBytes, hd]
      rw [hv, ha]

theorem keyInstr_resolution_witness :
    keyInstr2USBBytes "ESCAPE" [("KEY_ESC", "0x29")] [] = .ok [41] :=
  (keyInstr_resolution "ESCAPE" [("KEY_ESC", "0x29")] [] (by decide)).2.2
    "ESC" rfl rfl

theorem pyHexUpper2_eq (val : Nat) :
    pyHexUpper2 val = String.mk [hexDigitU (val / 16), hexDigitU (val % 16)] := by
  by_cases h16 : val < 16
  · have hd : val / 16 = 0 := Nat.div_eq_of_lt h16
    have hm : val % 16 = val := Nat.mod_eq_of_lt h16
    rw [hd, hm]
    unfold pyHexUpper2
    rw [if_pos h16]
    rfl
  · unfold pyHexUpper2
    rw [if_neg h16]
    rfl

theorem resolveCharEntries_found (keyProp langProp : Table) (e : List Char)
    (rest : List (List Char)) (acc : List Nat) (w : String) (b : Nat)
    (hw : lookupKL keyProp langProp (pyStrip (String.mk e)) = some w)
    (hb : valueToByte w = .ok b) :
    resolveCharEntries keyProp langProp (e :: rest) acc
      = resolveCharEntries keyProp langProp rest (acc ++ [b]) := by
  have h0 : resolveCharEntries keyProp langProp (e :: rest) acc
      = (match lookupKL keyProp langProp (pyStrip (String.mk e)) with
         | none => .ok none
         | some v =>
           match valueToByte v with
           | .error er => .error er
           | .ok b2 => resolveCharEntries keyProp langProp rest (acc ++ [b2])) := rfl
  rw [h0, hw]
  show (match valueToByte w with
        | Except.error er => (Except.error er : Except PyErr (Option (List Nat)))
        | Except.ok b2 => resolveCharEntries keyProp langProp rest (acc ++ [b2]))
      = resolveCharEntries keyProp langProp rest (acc ++ [b])
  rw [hb]

theorem asciiChar_found (c : Char) (keyProp langProp : Table) (v : String)
    (hv : tlookup langProp (charName c) = some v) :
    ASCIIChar2USBBytes c keyProp langProp
      = (match resolveCharEntries keyProp langProp (splitChar ',' v.data) [] with
         | .error e => .error e
         | .ok none => .ok []
         | .ok (some res) => .ok (if res.length = 1 then res ++ [0] else res)) := by
  unfold ASCIIChar2USBBytes
  rw [hv]

/-- C7: `ASCIIChar2USBBytes` builds the lookup name `ASCII_` +
2-uppercase-hex-digits of the ordinal when it is below `0x80` and
`ISO_8859_1_` + 2-hex-digits otherwise; when that name is absent from the
locale table the character is skipped non-fatally (empty result); when
present, each comma-separated entry resolves to one byte (keyboard table
first, then language table), and a single resulting byte gets a zero
modifier byte appended, making the successful result a (keycode, modifier)
pair. -/
theorem resolveChar_spec (c : Char) (keyProp langProp : Table) :
    (c.toNat < 256 →
       charName c = (if c.toNat < 0x80 then "ASCII_" else "ISO_8859_1_")
         ++ String.mk [hexDigitU (c.toNat / 16), hexDigitU (c.toNat % 16)]) ∧
    (tlookup langProp (charName c) = none →
       ASCIIChar2USBBytes c keyProp langProp = .ok []) ∧
    (∀ v e w n b, tlookup langProp (charName c) = some v →
       splitChar ',' v.data = [e] →
       lookupKL keyProp langProp (pyStrip (String.mk e)) = some w →
       parseKeyval w = .ok n → pyChr n = .ok b →
       ASCIIChar2USBBytes c keyProp langProp = .ok [b, 0]) ∧
    (∀ v e1 e2 w1 w2 n1 n2 b1 b2, tlookup langProp (charName c) = some v →
       splitChar ',' v.data = [e1, e2] →
       lookupKL keyProp langProp (pyStrip (String.mk e1)) = some w1 →
       parseKeyval w1 = .ok n1 → pyChr n1 = .ok b1 →
       lookupKL keyProp langProp (pyStrip (String.mk e2)) = some w2 →
       parseKeyval w2 = .ok n2 → pyChr n2 = .ok b2 →
       ASCIIChar2USBBytes c keyProp langProp = .ok [b1, b2]) := by
  refine ⟨?_, ?_, ?_, ?_⟩
  · intro _
    unfold charName
    by_cases h8 : c.toNat < 0x80
    · rw [if_pos h8, if_pos h8, pyHexUpper2_eq]
    · rw [if_neg h8, if_neg h8, pyHexUpper2_eq]
  · intro h
    unfold ASCIIChar2USBBytes
    rw [h]
  · intro v e w n b hv hsp hw hn hb
    have hvb : valueToByte w = .ok b := by
      unfold valueToByte
      rw [hn]
      exact hb
    rw [asciiChar_found c keyProp langProp v hv, hsp,
        resolveCharEntries_found keyProp langProp e [] [] w b hw hvb]
    rfl
  · intro v e1 e2 w1 w2 n1 n2 b1 b2 hv hsp hw1 hn1 hb1 hw2 hn2 hb2
    have hvb1 : valueToByte w1 = .ok b1 := by
      unfold valueToByte; rw [hn1]; exact hb1
    have hvb2 : valueToByte w2 = .ok b2 := by
      unfold valueToByte; rw [hn2]; exact hb2
    rw [asciiChar_found c keyProp langProp v hv, hsp,
        resolveCharEntries_found keyProp langProp e1 [e2] [] w1 b1 hw1 hvb1,
        resolveCharEntries_found keyProp langProp e2 [] ([] ++ [b1]) w2 b2 hw2 hvb2]
    rfl

theorem resolveChar_spec_witness :
    charName 'A' = "ASCII_41" ∧
    ASCIIChar2USBBytes 'a' [("KEY_A", "4")] [] = .ok [] ∧
    ASCIIChar2USBBytes 'A' [("KEY_A", "4")]
        [("ASCII_41", "KEY_A"), ("MODIFIERKEY_SHIFT", "0x02")] = .ok [4, 0] ∧
    ASCIIChar2USBBytes 'A' [("KEY_A", "4")]
        [("ASCII_41", "KEY_A, MODIFIERKEY_SHIFT"), ("MODIFIERKEY_SHIFT", "0x02")]
      = .ok [4, 2] :=
  ⟨(resolveChar_spec 'A' [] []).1 (by decide),
   (resolveChar_spec 'a' [("KEY_A", "4")] []).2.1 rfl,
   (resolveChar_spec 'A' [("KEY_A", "4")]
        [("ASCII_41", "KEY_A"), ("MODIFIERKEY_SHIFT", "0x02")]).2.2.1
     "KEY_A" "KEY_A".data "4" 4 4 rfl rfl rfl rfl rfl,
   (resolveChar_spec 'A' [("KEY_A", "4")]
        [("ASCII_41", "KEY_A, MODIFIERKEY_SHIFT"), ("MODIFIERKEY_SHIFT", "0x02")]).2.2.2
     "KEY_A, MODIFIERKEY_SHIFT" "KEY_A".data " MODIFIERKEY_SHIFT".data
     "4" "0x02" 4 2 4 2 rfl rfl rfl rfl rfl rfl rfl rfl⟩

theorem repeatLine_even (keyProp langProp : Table) (ll : String)
    (h : evenOk (parseScriptLine ll keyProp langProp) = true) :
    ∀ (n : Nat) (acc bs : List Nat), acc.length % 2 = 0 →
      repeatLine keyProp langProp ll n acc = .ok bs → bs.length % 2 = 0 := by
  intro n
  induction n with
  | zero =>
    intro acc bs hacc hok
    simp only [repeatLine] at hok
    injection hok with hok
    rw [← hok]
    exact hacc
  | succ n ih =>
    intro acc bs hacc hok
    simp only [repeatLine] at hok
    cases hp : parseScriptLine ll keyProp langProp with
    | error e => rw [hp] at hok; simp at hok
    | ok kd =>
      rw [hp] at hok
      have hkd : kd.length % 2 = 0 := by
        rw [hp] at h
        simpa [evenOk] using h
      refine ih (acc ++ kd) bs ?_ hok
      simp only [List.length_append]
      omega

theorem parseScriptLoop_even (keyProp langProp : Table) :
    ∀ (ls : List String) (lastLine : Option String) (acc bs : List Nat),
      (∀ l ∈ ls, evenOk (parseScriptLine (pyStrip l) keyProp langProp) = true) →
      (∀ ll, lastLine = some ll →
        evenOk (parseScriptLine ll keyProp langProp) = true) →
      acc.length % 2 = 0 →
      parseScriptLoop keyProp langProp ls lastLine acc = .ok bs →
      bs.length % 2 = 0 := by
  intro ls
  induction ls with
  | nil =>
    intro lastLine acc bs _ _ hacc hok
    simp only [parseScriptLoop] at hok
    injection hok with hok
    rw [← hok]
    exact hacc
  | cons l rest ih =>
    intro lastLine acc bs hls hlast hacc hok
    have hhead := hls l (List.mem_cons_self l rest)
    have hrest : ∀ x ∈ rest,
        evenOk (parseScriptLine (pyStrip x) keyProp langProp) = true :=
      fun x hx => hls x (List.mem_cons_of_mem l hx)
    have hlaststrip : ∀ x, some (pyStrip l) = some x →
        evenOk (parseScriptLine x keyProp langProp) = true := by
      intro x hx
      injection hx with hx
      rw [← hx]
      exact hhead
    simp only [parseScriptLoop] at hok
    split at hok
    · exact ih lastLine acc bs hrest hlast hacc hok
    · split at hok
      · split at hok
        · exact ih lastLine acc bs hrest hlast hacc hok
        · split at hok
          · exact ih none acc bs hrest hlast hacc hok
          · rename_i ll
            split at hok
            · exact absurd hok (by simp)
            · split at hok
              · exact absurd hok (by simp)
              · rename_i acc2 hrl
                have heven : evenOk (parseScriptLine ll keyProp langProp) = true :=
                  hlast ll rfl
                have hacc2 : acc2.length % 2 = 0 :=
                  repeatLine_even keyProp langProp ll heven _ acc acc2 hacc hrl
                exact ih (some (pyStrip l)) acc2 bs hrest hlaststrip hacc2 hok
      · split at hok
        · exact absurd hok (by simp)
        · rename_i bs1 hpl
          have hbs1 : bs1.length % 2 = 0 := by
            rw [hpl] at hhead
            simpa [evenOk] using hhead
          refine ih (some (pyStrip l)) (acc ++ bs1) bs hrest hlaststrip ?_ hok
          simp only [List.length_append]
          omega

/-- C1 (amended): the payload returned by `parseScript` is an ordered
byte sequence of even length — it consists of (keycode, modifier) pairs —
provided every line of the script encodes to a pair-aligned byte string;
a failed named-key resolution inside a line can break pair alignment (the
condition the spec flags as able to corrupt generated output). -/
theorem parseScript_even_of_lines_even (keyProp langProp : Table)
    (source : String) (bs : List Nat)
    (hok : parseScript source keyProp langProp = .ok bs)
    (hlines : ∀ l ∈ scriptLines source,
      evenOk (parseScriptLine (pyStrip l) keyProp langProp) = true) :
    bs.length % 2 = 0 :=
  parseScriptLoop_even keyProp langProp (scriptLines source) none [] bs
    hlines (fun _ h => by cases h) rfl hok

theorem parseScript_even_of_lines_even_witness :
    ([0, 5, 43, 4] : List Nat).length % 2 = 0 :=
  parseScript_even_of_lines_even
    [("KEY_TAB", "0x2B"), ("MODIFIERKEY_LEFT_ALT", "0x04")] []
    "DELAY 5\nALT-TAB" [0, 5, 43, 4] rfl (by decide)
